import Mathlib

/-!
Shallow embedding of the Relify relay engine (internal/router.go and
internal/store.go, first source variant, whose line numbers the claims
cite) together with theorems checking the natural-language specification
against it.

Modelling choices:
* Go strings are Lean `String`; timestamps (Unix seconds) are `Int`.
* The event-kind constants `Msg`, `Note`, `Edit` (declared in the model
  file that is absent from the snapshot, but used only through equality
  tests in the present code) are an inductive type `Kind`; the `Revoke`
  subtype constant is a fixed string.
* `Props` (Go `map[string]any`) is an association list to a value type
  distinguishing strings from non-string values, which is all the router
  inspects (`isRevoke` requires `extra["subtype"]` to be a string).
* The SQLite tables of store.go are lists of row structures; primary-key
  behaviour (`INSERT OR IGNORE`, constraint violation + rollback) is made
  explicit in the operations.
* The in-memory `sync.Map` cache of `Store` is a list keyed by
  `(plat, room)`; the user-mapping cache uses a disjoint `u:`-prefixed
  key namespace and the claims never touch it, so it is omitted.
* Goroutine fan-out is sequentialised: the per-target `Push` calls are
  independent of one another, so their parallel execution is modelled as
  a list traversal, and the asynchronous write queue of `Store.Map` is
  modelled as the list of enqueued insert operations returned by `Handle`.
-/

namespace Relify

/-- Event kinds: the constants Msg, Note, Edit of the internal package
(compared only for equality in the code under verification). -/
inductive Kind where
  | msg
  | note
  | edit
deriving DecidableEq, Repr

/-- Value of a Props entry: the router only distinguishes string values
(for the subtype check) from everything else. -/
inductive PVal where
  | str (s : String)
  | other
deriving DecidableEq, Repr

/-- Props is Go map[string]any, as an association list. -/
abbrev Props := List (String × PVal)

/-- The Revoke subtype constant (exact literal unknown, used only via
equality with itself). -/
def Revoke : String := "revoke"

/-- Seg: one message segment (Kind string plus raw Props). -/
structure Seg where
  kind : String
  raw : Props
deriving DecidableEq, Repr

/-- Event: the normalized event of the internal package (fields Kind,
Plat, Room, User, ID, Ref, Time, Segs, Extra as used by router.go). -/
structure Event where
  kind : Kind
  plat : String
  room : String
  user : String
  id : String
  ref : String
  time : Int
  segs : List Seg
  extra : Props
deriving DecidableEq, Repr

/-- Node: one endpoint of a bridge. The Cfg Props are serialized to a
string on insert and never inspected by the router, so the model keeps
the serialized form directly. -/
structure Node where
  plat : String
  room : String
  cfg : String
deriving DecidableEq, Repr

/-- Group: a bridge group (id, name, nodes). -/
structure Group where
  id : Int
  name : String
  nodes : List Node
deriving DecidableEq, Repr

/-- Info: room information returned by a driver. -/
structure Info where
  name : String
  avatar : String
  topic : String
deriving DecidableEq, Repr

/-- Route policy of a driver (RouteMix or RouteMirror). -/
inductive Route where
  | mix
  | mirror
deriving DecidableEq, Repr

/-- Driver: the adapter contract as seen by the router. Send returns the
produced message ID on success (possibly empty) and none on error; Make
is CreateRoom; RoomInfo lookup returns none when the driver yields no
info (the router then falls back to the room ID as name). -/
structure Driver where
  name : String
  route : Route
  send : Node → Event → Option String
  make : Option Info → Option String
  info : String → Option Info

/-- Registry: drivers keyed by name; a Go map iterated in some order,
modelled as a list with the names assumed distinct where needed. -/
abbrev Registry := List Driver

/-- Config: the fields of the global configuration the router reads. -/
structure Config where
  mode : String
  hub : String
deriving DecidableEq, Repr

/-! ## Store (internal/store.go) -/

/-- One row of the maps table
(src_plat, src_msg, dst_plat, dst_msg, bind_id, ts);
primary key (src_plat, src_msg, dst_plat). -/
structure MapRow where
  srcPlat : String
  srcMsg : String
  dstPlat : String
  dstMsg : String
  bindId : Int
  ts : Int
deriving DecidableEq, Repr

/-- One row of the binds table (bind_id, plat, room, cfg);
primary key (plat, room). -/
structure BindRow where
  bindId : Int
  plat : String
  room : String
  cfg : String
deriving DecidableEq, Repr

/-- One row of the groups table (id autoincrement, name). -/
structure GroupRow where
  id : Int
  name : String
deriving DecidableEq, Repr

/-- StoreState: the persistent tables plus the in-memory group cache and
the autoincrement counter of the groups table. -/
structure StoreState where
  groups : List GroupRow
  binds : List BindRow
  maps : List MapRow
  cacheG : List ((String × String) × List Group)
  nextGid : Int
deriving Repr

/-- The empty store, as created by NewStore on a fresh database. -/
def StoreState.empty : StoreState :=
  { groups := [], binds := [], maps := [], cacheG := [], nextGid := 1 }

namespace Store

/-- Store.Echo: SELECT 1 FROM maps WHERE dst_plat=? AND dst_msg=? LIMIT 1. -/
def Echo (s : StoreState) (plat msg : String) : Bool :=
  s.maps.any (fun r => r.dstPlat == plat && r.dstMsg == msg)

/-- Store.Seek: SELECT dst_msg FROM maps WHERE src_plat=? AND src_msg=?
AND dst_plat=?; the (string, bool) return is an Option. -/
def Seek (s : StoreState) (sPlat sMsg dPlat : String) : Option String :=
  (s.maps.find? (fun r =>
    r.srcPlat == sPlat && r.srcMsg == sMsg && r.dstPlat == dPlat)).map
    (fun r => r.dstMsg)

/-- The INSERT OR IGNORE executed for a Store.Map operation once the
batched writer runs it: if a row with the same primary-key triple exists
the statement is ignored, otherwise the row is appended. -/
def mapInsert (s : StoreState) (sPlat sMsg dPlat dMsg : String)
    (bid ts : Int) : StoreState :=
  if s.maps.any (fun r =>
      r.srcPlat == sPlat && r.srcMsg == sMsg && r.dstPlat == dPlat) then
    s
  else
    { s with maps := s.maps ++ [⟨sPlat, sMsg, dPlat, dMsg, bid, ts⟩] }

/-- The DELETE executed by the cleaner goroutine: at wall-clock time now
it removes every maps row with ts < now - 48h (48h = 172800 seconds,
the fixed retention of store.go). -/
def cleanerExec (s : StoreState) (now : Int) : StoreState :=
  { s with maps := s.maps.filter (fun r => !(r.ts < now - 172800)) }

/-- Group assembly of Store.Find once a bind row is known: name from the
groups table, nodes from all binds rows sharing the bind_id. -/
def buildGroup (s : StoreState) (bid : Int) : Group :=
  { id := bid
    name := (((s.groups.find? (fun g => g.id == bid)).map
      (fun g => g.name)).getD "")
    nodes := (s.binds.filter (fun b => b.bindId == bid)).map
      (fun b => ⟨b.plat, b.room, b.cfg⟩) }

/-- Store.Find: cache lookup first; on miss, query the bind row; not
found returns the empty list without caching; found builds the group and
caches it under the (plat, room) key. -/
def Find (s : StoreState) (plat room : String) :
    List Group × StoreState :=
  match s.cacheG.lookup (plat, room) with
  | some v => (v, s)
  | none =>
    match s.binds.find? (fun b => b.plat == plat && b.room == room) with
    | none => ([], s)
    | some b =>
      let g := buildGroup s b.bindId
      ([g], { s with cacheG := ((plat, room), [g]) :: s.cacheG })

/-- Deletion of a list of keys from the group cache (the sync.Map Delete
calls Add performs per inserted node). -/
def deleteKeys (c : List ((String × String) × List Group))
    (ks : List (String × String)) :
    List ((String × String) × List Group) :=
  c.filter (fun e => !(ks.contains e.1))

/-- The per-node INSERT loop of Store.Add inside its transaction:
inserting a node whose (plat, room) primary key is already present in
the (transaction-local) binds table fails; each successful insert also
records the cache key the Go code deletes. Returns the final binds table
on success, none on constraint violation, together with the cache keys
deleted before the outcome. -/
def addBindsLoop (bid : Int) :
    List BindRow → List Node → List (String × String) →
    Option (List BindRow) × List (String × String)
  | bs, [], dels => (some bs, dels)
  | bs, n :: rest, dels =>
    if bs.any (fun b => b.plat == n.plat && b.room == n.room) then
      (none, dels)
    else
      addBindsLoop bid (bs ++ [⟨bid, n.plat, n.room, n.cfg⟩]) rest
        (dels ++ [(n.plat, n.room)])

/-- Store.Add: transactional creation of a bridge group. The groups
insert and all binds inserts run in one transaction that is rolled back
on any failure; the cache deletions performed for nodes inserted before
a failure are not rolled back (they happen outside the transaction). -/
def Add (s : StoreState) (name : String) (nodes : List Node) :
    Option Group × StoreState :=
  let bid := s.nextGid
  match addBindsLoop bid s.binds nodes [] with
  | (none, dels) =>
    (none, { s with cacheG := deleteKeys s.cacheG dels })
  | (some bs, dels) =>
    (some ⟨bid, name, nodes⟩,
     { s with
        groups := s.groups ++ [⟨bid, name⟩]
        binds := bs
        cacheG := deleteKeys s.cacheG dels
        nextGid := bid + 1 })

end Store

/-! ## Router (internal/router.go) -/

/-- copyEvt: deep copy of an event (field-by-field; the maps and slices
are copied, which on immutable values is the identity). -/
def copyEvt (e : Event) : Event :=
  { kind := e.kind, plat := e.plat, room := e.room, user := e.user
    id := e.id, ref := e.ref, time := e.time, segs := e.segs
    extra := e.extra }

/-- isRevoke: the event's extra subtype is the string Revoke. -/
def isRevoke (e : Event) : Bool :=
  match e.extra.lookup "subtype" with
  | some (.str s) => s == Revoke
  | _ => false

/-- Router.needRefConvert: revoke notices, edits, and messages with a
non-empty ref need reference conversion. -/
def needRefConvert (e : Event) : Bool :=
  (e.kind == .note && isRevoke e) || e.kind == .edit ||
    (e.kind == .msg && e.ref != "")

/-- Router.isValidEvent: drop nil events, Message events with no
segments, and echoes. -/
def isValidEvent (s : StoreState) : Option Event → Bool
  | none => false
  | some e =>
    if e.kind == .msg && e.segs.isEmpty then false
    else !(Store.Echo s e.plat e.id)

/-- targetInfo: one fan-out target (node, driver, bind id). -/
structure TargetInfo where
  node : Node
  driver : Driver
  bindId : Int

/-- Router.collectTargets: all nodes of the bound groups whose platform
differs from the source and whose driver is registered. -/
def collectTargets (reg : Registry) (srcPlat : String)
    (binds : List Group) : List TargetInfo :=
  binds.flatMap (fun b => b.nodes.filterMap (fun node =>
    if node.plat == srcPlat then none
    else (reg.find? (fun d => d.name == node.plat)).map
      (fun d => ⟨node, d, b.id⟩)))

/-- Router.prepareRefMappings: when the event needs reference conversion
and carries a ref, query the mapping for every target platform; entries
exist only for found mappings; an empty result (or no conversion needed)
is the nil map. -/
def prepareRefMappings (s : StoreState) (e : Event)
    (targets : List TargetInfo) : Option (List (String × String)) :=
  if !needRefConvert e || e.ref == "" then none
  else
    let m := targets.filterMap (fun t =>
      (Store.Seek s e.plat e.ref t.node.plat).map
        (fun tid => (t.node.plat, tid)))
    if m.isEmpty then none else some m

/-- Router.Fix: adapt an event to a target node. Critical operations
(revoke notices and edits) with no ref, or whose ref has no mapping to
the target platform, yield none; a plain message reply with an unmapped
ref is delivered with the ref cleared. -/
def Fix (s : StoreState) (src : Event) (node : Node)
    (refMappings : Option (List (String × String))) : Option Event :=
  if !needRefConvert src then some (copyEvt src)
  else
    let isRevokeCmd := src.kind == .note && isRevoke src
    let isEditMsg := src.kind == .edit
    let isCriticalOp := isRevokeCmd || isEditMsg
    if src.ref == "" then
      if isCriticalOp then none else some (copyEvt src)
    else
      let dst := copyEvt src
      let found : Option String :=
        match refMappings with
        | some m => m.lookup node.plat
        | none => Store.Seek s src.plat src.ref node.plat
      match found with
      | some tid => some { dst with ref := tid }
      | none =>
        if isCriticalOp then none else some { dst with ref := "" }

/-- Result of one Push: the Send invocations made (target node and
outgoing event) and the Store.Map operations enqueued. -/
structure PushResult where
  sends : List (Node × Event)
  maps : List (String × String × String × String × Int)
deriving Repr

/-- Router.Push: fix the event; on nil give up without sending; else
call Send; on success of a Message send with a non-empty new ID, enqueue
the message mapping. -/
def Push (s : StoreState) (dst : Driver) (srcEvt : Event) (node : Node)
    (bid : Int) (refMappings : Option (List (String × String))) :
    PushResult :=
  match Fix s srcEvt node refMappings with
  | none => ⟨[], []⟩
  | some out =>
    match dst.send node out with
    | none => ⟨[(node, out)], []⟩
    | some nid =>
      if out.kind == .msg && nid != "" then
        ⟨[(node, out)], [(srcEvt.plat, srcEvt.id, node.plat, nid, bid)]⟩
      else
        ⟨[(node, out)], []⟩

/-- Router.getTargetPlatforms: hub mode targets only the hub; peer mode
targets every registered platform other than the source. -/
def getTargetPlatforms (cfg : Config) (reg : Registry)
    (srcPlat : String) : List String × String :=
  if cfg.mode == "hub" then
    ([cfg.hub], "中心: " ++ srcPlat ++ " <-> " ++ cfg.hub)
  else
    ((reg.filter (fun d => d.name != srcPlat)).map (fun d => d.name),
     "对等: " ++ srcPlat ++ " -> 全部")

/-- Lazy source-room info of Match: the driver's Info, or the room ID as
name when the driver yields none. -/
def getSrcInfo (src : Driver) (room : String) : Info :=
  match src.info room with
  | some i => i
  | none => { name := room, avatar := "", topic := "" }

/-- Router.createTargetRoom: Mix targets get CreateRoom(nil); Mirror
targets get a fresh room named after the source. -/
def createTargetRoom (dst src : Driver) (info : Info) : Option String :=
  if dst.route == .mix then dst.make none
  else
    dst.make (some
      { name := "[" ++ src.name ++ "]" ++ info.name
        avatar := info.avatar
        topic := if info.topic != "" then "通过 Relify" else "" })

/-- The target loop of Router.Match: for each target platform, look up
its driver (missing: fatal in hub mode, skipped in peer mode), create
the target room (failure: fatal in hub mode, skipped in peer mode), and
append the node. Accumulates the CreateRoom calls made; an error result
carries the calls made before the abort. -/
def matchLoop (cfg : Config) (reg : Registry) (src : Driver)
    (info : Info) :
    List String → List Node → List String →
    Except (List String × String) (List Node × List String)
  | [], nodes, creates => .ok (nodes, creates)
  | tn :: rest, nodes, creates =>
    match reg.find? (fun d => d.name == tn) with
    | none =>
      if cfg.mode == "hub" then .error (creates, "中心 " ++ tn ++ " 离线")
      else matchLoop cfg reg src info rest nodes creates
    | some dst =>
      let creates' := creates ++ [tn]
      match createTargetRoom dst src info with
      | none =>
        if cfg.mode == "hub" then .error (creates', "创建目标房间失败")
        else matchLoop cfg reg src info rest nodes creates'
      | some tid =>
        matchLoop cfg reg src info rest (nodes ++ [⟨tn, tid, ""⟩])
          creates'

/-- Result of Router.Match: the groups returned to Handle, the groups
actually persisted by this call, the store afterwards, the CreateRoom
calls made, and the returned error. -/
structure MatchResult where
  groups : List Group
  created : List Group
  store : StoreState
  creates : List String
  err : Option String

/-- Router.Match: hub-origin events are a no-op; otherwise re-check for
an existing bridge (the double-checked build under the room lock),
compute the target platforms, create the target rooms, require at least
two nodes, and persist the group through Store.Add. -/
def Match (cfg : Config) (reg : Registry) (s : StoreState) (e : Event)
    (src : Driver) : MatchResult :=
  if cfg.mode == "hub" && e.plat == cfg.hub then
    ⟨[], [], s, [], none⟩
  else
    match Store.Find s e.plat e.room with
    | (binds0, s0) =>
      if !binds0.isEmpty then ⟨binds0, [], s0, [], none⟩
      else if (getTargetPlatforms cfg reg e.plat).1.isEmpty then
        ⟨[], [], s0, [], some "无可用目标平台"⟩
      else
        match matchLoop cfg reg src (getSrcInfo src e.room)
            (getTargetPlatforms cfg reg e.plat).1
            [⟨e.plat, e.room, ""⟩] [] with
        | .error (creates, msg) => ⟨[], [], s0, creates, some msg⟩
        | .ok (nodes, creates) =>
          if nodes.length < 2 then
            ⟨[], [], s0, creates, some "节点数量不足"⟩
          else
            match Store.Add s0 (getTargetPlatforms cfg reg e.plat).2
                nodes with
            | (none, s1) => ⟨[], [], s1, creates, some "保存桥接配置失败"⟩
            | (some g, s1) => ⟨[g], [g], s1, creates, none⟩

/-- Result of Router.Handle: the Send invocations, the groups persisted,
the CreateRoom calls, the enqueued Store.Map operations, the resulting
store, and the returned error. -/
structure HandleResult where
  sends : List (Node × Event)
  created : List Group
  creates : List String
  maps : List (String × String × String × String × Int)
  store : StoreState
  err : Option String

/-- The fan-out tail of Handle: collect targets from the resolved
groups, pre-resolve references, and run the per-target pushes. -/
def handleDispatch (reg : Registry) (e : Event) (binds : List Group)
    (s1 : StoreState) (created : List Group) (creates : List String) :
    HandleResult :=
  let targets := collectTargets reg e.plat binds
  if targets.isEmpty then ⟨[], created, creates, [], s1, none⟩
  else
    let refM := prepareRefMappings s1 e targets
    let results := targets.map (fun t =>
      Push s1 t.driver e t.node t.bindId refM)
    ⟨(results.map (fun r => r.sends)).flatten, created, creates,
     (results.map (fun r => r.maps)).flatten, s1, none⟩

/-- The body of Handle once the event passed the validity check and its
source driver was resolved: resolve the bridge, auto-match when none
exists (a matching error drops the event with a nil error), then fan
out. -/
def handleValid (cfg : Config) (reg : Registry) (s : StoreState)
    (e : Event) (src : Driver) : HandleResult :=
  match Store.Find s e.plat e.room with
  | (binds0, s0) =>
    if binds0.isEmpty then
      let m := Match cfg reg s0 e src
      match m.err with
      | some _ => ⟨[], [], m.creates, [], m.store, none⟩
      | none => handleDispatch reg e m.groups m.store m.created m.creates
    else handleDispatch reg e binds0 s0 [] []

/-- Router.Handle: validity check (nil, empty message, echo), source
driver lookup, bridge resolution with auto-matching, target collection,
reference pre-resolution, and fan-out. Always returns without error. -/
def Handle (cfg : Config) (reg : Registry) (s : StoreState)
    (oe : Option Event) : HandleResult :=
  if !isValidEvent s oe then ⟨[], [], [], [], s, none⟩
  else
    match oe with
    | none => ⟨[], [], [], [], s, none⟩
    | some e =>
      match reg.find? (fun d => d.name == e.plat) with
      | none => ⟨[], [], [], [], s, none⟩
      | some src => handleValid cfg reg s e src

/-! ## Helper lemmas -/

theorem lookup_mem {l : List (String × String)} {k v : String}
    (h : l.lookup k = some v) : (k, v) ∈ l := by
  induction l with
  | nil => simp [List.lookup] at h
  | cons a t ih =>
    obtain ⟨k', b⟩ := a
    rw [List.lookup] at h
    by_cases hk : (k == k') = true
    · rw [hk] at h
      have hkk : k = k' := eq_of_beq hk
      simp only [Option.some.injEq] at h
      subst hkk h
      exact List.mem_cons_self _ _
    · rw [Bool.not_eq_true] at hk
      rw [hk] at h
      exact List.mem_cons_of_mem _ (ih h)

theorem copyEvt_eq (e : Event) : copyEvt e = e := rfl

theorem prepare_lookup_eq_none (s : StoreState) (e : Event)
    (targets : List TargetInfo) (p : String)
    (hseek : Store.Seek s e.plat e.ref p = none)
    (m : List (String × String))
    (hm : prepareRefMappings s e targets = some m) :
    m.lookup p = none := by
  unfold prepareRefMappings at hm
  by_cases hc : (!needRefConvert e || e.ref == "") = true
  · rw [if_pos hc] at hm
    exact absurd hm (by simp)
  · rw [if_neg hc] at hm
    by_cases he : (targets.filterMap (fun t =>
        (Store.Seek s e.plat e.ref t.node.plat).map
          (fun tid => (t.node.plat, tid)))).isEmpty = true
    · rw [if_pos he] at hm
      exact absurd hm (by simp)
    · rw [if_neg he] at hm
      simp only [Option.some.injEq] at hm
      cases hv : m.lookup p with
      | none => rfl
      | some v =>
        exfalso
        have hmem := lookup_mem hv
        rw [← hm, List.mem_filterMap] at hmem
        obtain ⟨t, _, hft⟩ := hmem
        rw [Option.map_eq_some'] at hft
        obtain ⟨tid, htid, heq⟩ := hft
        have hp1 : t.node.plat = p := congrArg Prod.fst heq
        rw [hp1, hseek] at htid
        exact Option.noConfusion htid

theorem push_sends (s : StoreState) (d : Driver) (e : Event) (n : Node)
    (bid : Int) (refM : Option (List (String × String))) :
    (Push s d e n bid refM).sends =
      match Fix s e n refM with
      | none => []
      | some out => [(n, out)] := by
  unfold Push
  cases Fix s e n refM with
  | none => rfl
  | some out =>
    simp only []
    cases d.send n out with
    | none => rfl
    | some nid =>
      simp only []
      by_cases h : (out.kind == Kind.msg && nid != "") = true
      · rw [if_pos h]
      · rw [if_neg h]

/-! ## Claim theorems -/

/-- Claim C7: mapping insertion is idempotent on the primary-key triple:
executing the INSERT OR IGNORE of Store.Map a second time with the same
(srcPlatform, srcMsg, dstPlatform) triple — whatever destination message,
bind id and timestamp it carries — leaves the maps table identical to
executing it once; the second insert is ignored and the row count is
unchanged. -/
theorem mapInsert_idempotent (s : StoreState)
    (sP sM dP dM dM' : String) (b b' t t' : Int) :
    Store.mapInsert (Store.mapInsert s sP sM dP dM b t) sP sM dP dM' b' t' =
      Store.mapInsert s sP sM dP dM b t := by
  unfold Store.mapInsert
  by_cases h : s.maps.any (fun r =>
      r.srcPlat == sP && r.srcMsg == sM && r.dstPlat == dP) = true
  · simp [h]
  · simp only [Bool.not_eq_true] at h
    simp [h, List.any_append]

/-- Claim C9: once the cleaner's DELETE runs at time now, no maps row
with timestamp older than now minus the fixed 48-hour retention remains,
and every row at or newer than that bound is untouched. -/
theorem cleaner_retention (s : StoreState) (now : Int) :
    (∀ r ∈ (Store.cleanerExec s now).maps, ¬(r.ts < now - 172800)) ∧
    (∀ r ∈ s.maps, ¬(r.ts < now - 172800) →
      r ∈ (Store.cleanerExec s now).maps) := by
  constructor
  · intro r hr
    unfold Store.cleanerExec at hr
    simp only [List.mem_filter, Bool.not_eq_true', decide_eq_false_iff_not]
      at hr
    exact hr.2
  · intro r hr h
    unfold Store.cleanerExec
    simp only [List.mem_filter, Bool.not_eq_true', decide_eq_false_iff_not]
    exact ⟨hr, h⟩

/-- Concrete store used by the C9 witness: one stale row, one fresh row. -/
def storeC9 : StoreState :=
  { StoreState.empty with maps :=
      [⟨"P1", "a", "P2", "a2", 1, 100⟩, ⟨"P1", "b", "P2", "b2", 1, 150000⟩] }

/-- Witness for C9 at a concrete store and purge time. -/
theorem cleaner_retention_witness :
    ((∀ r ∈ (Store.cleanerExec storeC9 200000).maps,
        ¬(r.ts < 200000 - 172800)) ∧
      (∀ r ∈ storeC9.maps, ¬(r.ts < 200000 - 172800) →
        r ∈ (Store.cleanerExec storeC9 200000).maps)) ∧
    (Store.cleanerExec storeC9 200000).maps =
      [⟨"P1", "b", "P2", "b2", 1, 150000⟩] :=
  ⟨cleaner_retention storeC9 200000, by decide⟩

/-- Claim C10: a Notice event whose extra subtype is not Revoke is not
subject to reference conversion: the per-target rewrite returns an
unchanged copy (the original ref included), and the push sends exactly
that copy to the target. -/
theorem fix_notice_nonrevoke_unchanged (s : StoreState) (d : Driver)
    (e : Event) (n : Node) (bid : Int)
    (refM : Option (List (String × String)))
    (hk : e.kind = .note) (hr : isRevoke e = false) :
    Fix s e n refM = some e ∧
      (Push s d e n bid refM).sends = [(n, e)] := by
  have hconv : needRefConvert e = false := by
    unfold needRefConvert
    rw [hk, hr]
    rfl
  have hfix : Fix s e n refM = some e := by
    unfold Fix
    rw [hconv]
    rfl
  refine ⟨hfix, ?_⟩
  rw [push_sends, hfix]

/-- Event used by the witnesses of C10. -/
def evC10 : Event :=
  { kind := .note, plat := "P1", room := "R1", user := "u1", id := "n1"
    ref := "m9", time := 5, segs := [⟨"text", [("txt", .str "joined")]⟩]
    extra := [("subtype", .str "member_join")] }

/-- Driver used by several witnesses: platform P2, mirror policy,
always sends successfully. -/
def drvP2 : Driver :=
  ⟨"P2", .mirror, fun _ _ => some "out1", fun _ => some "R2", fun _ => none⟩

/-- Witness for C10 at a concrete non-revoke notice. -/
theorem fix_notice_nonrevoke_unchanged_witness :
    Fix StoreState.empty evC10 ⟨"P2", "R2", ""⟩ none = some evC10 ∧
      (Push StoreState.empty drvP2 evC10 ⟨"P2", "R2", ""⟩ 1 none).sends =
        [(⟨"P2", "R2", ""⟩, evC10)] :=
  fix_notice_nonrevoke_unchanged StoreState.empty drvP2 evC10
    ⟨"P2", "R2", ""⟩ 1 none rfl (by decide)

/-- Claim C2: a Message event with a non-empty ref that has no mapping
to the target platform is still delivered to that target — the rewrite
yields the event with the ref cleared (never none), and Send is called
with it. The pre-resolved reference map is the one Handle computes. -/
theorem push_message_unmapped_ref_delivered (s : StoreState) (d : Driver)
    (e : Event) (n : Node) (bid : Int) (targets : List TargetInfo)
    (hk : e.kind = .msg) (href : e.ref ≠ "")
    (hseek : Store.Seek s e.plat e.ref n.plat = none) :
    Fix s e n (prepareRefMappings s e targets) =
        some { e with ref := "" } ∧
      (Push s d e n bid (prepareRefMappings s e targets)).sends =
        [(n, { e with ref := "" })] := by
  have hconv : needRefConvert e = true := by
    unfold needRefConvert
    rw [hk]
    simp [href]
  have hrefb : (e.ref == "") = false := by
    simp [href]
  have hnotnote : (e.kind == Kind.note) = false := by rw [hk]; rfl
  have hnotedit : (e.kind == Kind.edit) = false := by rw [hk]; rfl
  have hfound : (match prepareRefMappings s e targets with
      | some m => m.lookup n.plat
      | none => Store.Seek s e.plat e.ref n.plat) = none := by
    cases hp : prepareRefMappings s e targets with
    | none => exact hseek
    | some m => exact prepare_lookup_eq_none s e targets n.plat hseek m hp
  have hfix : Fix s e n (prepareRefMappings s e targets) =
      some { e with ref := "" } := by
    unfold Fix
    rw [hconv]
    simp only [Bool.not_true, Bool.false_eq_true, if_false, hrefb]
    rw [hfound]
    simp only [hnotnote, hnotedit, Bool.false_and, Bool.false_or,
      Bool.false_eq_true, if_false]
    rfl
  refine ⟨hfix, ?_⟩
  rw [push_sends, hfix]

/-- Store and event used by the witnesses of C2: the store holds no
mapping for the referenced message. -/
def evC2 : Event :=
  { kind := .msg, plat := "P1", room := "R1", user := "u1", id := "m2"
    ref := "m1", time := 7, segs := [⟨"text", [("txt", .str "ok")]⟩]
    extra := [] }

/-- Witness for C2 at a concrete message whose ref has no mapping. -/
theorem push_message_unmapped_ref_delivered_witness :
    Fix StoreState.empty evC2 ⟨"P2", "R2", ""⟩
        (prepareRefMappings StoreState.empty evC2 []) =
        some { evC2 with ref := "" } ∧
      (Push StoreState.empty drvP2 evC2 ⟨"P2", "R2", ""⟩ 1
          (prepareRefMappings StoreState.empty evC2 [])).sends =
        [(⟨"P2", "R2", ""⟩, { evC2 with ref := "" })] :=
  push_message_unmapped_ref_delivered StoreState.empty drvP2 evC2
    ⟨"P2", "R2", ""⟩ 1 [] rfl (by decide) (by decide)

/-- Claim C3: a critical event (Edit, or Notice with subtype Revoke)
whose ref is empty or has no mapping to the target platform is dropped
for that target: the rewrite returns none and Send is not called. -/
theorem push_critical_unresolved_dropped (s : StoreState) (d : Driver)
    (e : Event) (n : Node) (bid : Int) (targets : List TargetInfo)
    (hc : e.kind = .edit ∨ (e.kind = .note ∧ isRevoke e = true))
    (hmiss : e.ref = "" ∨ Store.Seek s e.plat e.ref n.plat = none) :
    Fix s e n (prepareRefMappings s e targets) = none ∧
      (Push s d e n bid (prepareRefMappings s e targets)).sends = [] := by
  have hcrit : ((e.kind == .note && isRevoke e) || e.kind == .edit) = true := by
    rcases hc with h | ⟨h1, h2⟩
    · rw [h]; rfl
    · rw [h1, h2]; rfl
  have hconv : needRefConvert e = true := by
    unfold needRefConvert
    rcases hc with h | ⟨h1, h2⟩
    · rw [h]; rfl
    · rw [h1, h2]; rfl
  have hfix : Fix s e n (prepareRefMappings s e targets) = none := by
    unfold Fix
    rw [hconv]
    by_cases hre : e.ref = ""
    · simp only [Bool.not_true, Bool.false_eq_true, if_false, hre]
      simp [hcrit]
    · have hrefb : (e.ref == "") = false := by simp [hre]
      have hseek : Store.Seek s e.plat e.ref n.plat = none := by
        rcases hmiss with h | h
        · exact absurd h hre
        · exact h
      have hfound : (match prepareRefMappings s e targets with
          | some m => m.lookup n.plat
          | none => Store.Seek s e.plat e.ref n.plat) = none := by
        cases hp : prepareRefMappings s e targets with
        | none => exact hseek
        | some m =>
          exact prepare_lookup_eq_none s e targets n.plat hseek m hp
      simp only [Bool.not_true, Bool.false_eq_true, if_false, hrefb]
      rw [hfound]
      simp [hcrit]
  refine ⟨hfix, ?_⟩
  rw [push_sends, hfix]

/-- Event used by the witnesses of C3: a revoke notice with an unmapped
ref. -/
def evC3 : Event :=
  { kind := .note, plat := "P1", room := "R1", user := "u1", id := "n2"
    ref := "m1", time := 9, segs := []
    extra := [("subtype", .str Revoke)] }

/-- Witness for C3 at a concrete revoke notice whose ref is unmapped. -/
theorem push_critical_unresolved_dropped_witness :
    Fix StoreState.empty evC3 ⟨"P2", "R2", ""⟩
        (prepareRefMappings StoreState.empty evC3 []) = none ∧
      (Push StoreState.empty drvP2 evC3 ⟨"P2", "R2", ""⟩ 1
          (prepareRefMappings StoreState.empty evC3 [])).sends = [] :=
  push_critical_unresolved_dropped StoreState.empty drvP2 evC3
    ⟨"P2", "R2", ""⟩ 1 [] (Or.inr ⟨rfl, by decide⟩) (Or.inr (by decide))

theorem find_nil (s : StoreState) (p r : String)
    (h : (Store.Find s p r).1 = []) : Store.Find s p r = ([], s) := by
  unfold Store.Find at h ⊢
  cases hc : s.cacheG.lookup (p, r) with
  | some v =>
    rw [hc] at h
    simp only [] at h
    rw [h]
  | none =>
    rw [hc] at h
    cases hb : s.binds.find? (fun b => b.plat == p && b.room == r) with
    | none => rfl
    | some b =>
      rw [hb] at h
      simp only [] at h
      exact absurd h (List.cons_ne_nil _ _)

/-- Claim C1: an event the store recognizes as an echo (its platform and
ID appear on the destination side of a mapping row) is dropped by Handle
before any dispatch: no Send call, no bridge creation, no CreateRoom, no
mapping write, the store untouched, and a nil error. -/
theorem handle_echo_dropped (cfg : Config) (reg : Registry)
    (s : StoreState) (e : Event)
    (hecho : Store.Echo s e.plat e.id = true) :
    Handle cfg reg s (some e) = ⟨[], [], [], [], s, none⟩ := by
  have hv : isValidEvent s (some e) = false := by
    unfold isValidEvent
    simp only []
    by_cases hm : (e.kind == Kind.msg && e.segs.isEmpty) = true
    · rw [if_pos hm]
    · rw [if_neg hm, hecho]
      rfl
  unfold Handle
  rw [hv]
  rfl

/-- Store and event used by the C1 witness: the store's maps table shows
the event's (platform, id) on a destination side. -/
def storeC1 : StoreState :=
  { StoreState.empty with maps := [⟨"P1", "m1", "P2", "m1x", 1, 10⟩] }

/-- Echoed event for the C1 witness. -/
def evC1 : Event :=
  { kind := .msg, plat := "P2", room := "R2", user := "u2", id := "m1x"
    ref := "", time := 11, segs := [⟨"text", [("txt", .str "hi")]⟩]
    extra := [] }

/-- Peer-mode configuration fixture. -/
def cfgPeer : Config := ⟨"peer", ""⟩

/-- Witness for C1 at a concrete echoed event. -/
theorem handle_echo_dropped_witness :
    Store.Echo storeC1 evC1.plat evC1.id = true ∧
      Handle cfgPeer [] storeC1 (some evC1) =
        ⟨[], [], [], [], storeC1, none⟩ :=
  ⟨by decide, handle_echo_dropped cfgPeer [] storeC1 evC1 (by decide)⟩

/-- Claim C5: in hub mode an event originating at the hub whose room has
no existing bridge is a complete no-op: the Matcher attempts nothing, no
CreateRoom is called, no bridge is persisted, and Handle produces zero
outbound sends (and no error, with the store unchanged). -/
theorem handle_hub_origin_noop (cfg : Config) (reg : Registry)
    (s : StoreState) (e : Event)
    (hm : cfg.mode = "hub") (hp : e.plat = cfg.hub)
    (hf : (Store.Find s e.plat e.room).1 = []) :
    Handle cfg reg s (some e) = ⟨[], [], [], [], s, none⟩ := by
  have hfs : Store.Find s e.plat e.room = ([], s) := find_nil _ _ _ hf
  unfold Handle
  by_cases hv : isValidEvent s (some e) = true
  · rw [hv]
    simp only [Bool.not_true, Bool.false_eq_true, if_false]
    cases hsrc : reg.find? (fun d => d.name == e.plat) with
    | none => rfl
    | some src =>
      unfold handleValid
      rw [hfs]
      simp only []
      have hmt : Match cfg reg s e src = ⟨[], [], s, [], none⟩ := by
        unfold Match
        have hcond : (cfg.mode == "hub" && e.plat == cfg.hub) = true := by
          rw [hm, hp]
          simp
        rw [hcond]
        rfl
      rw [hmt]
      rfl
  · rw [Bool.not_eq_true] at hv
    rw [hv]
    rfl

/-- Hub-mode configuration fixture with hub platform P1. -/
def cfgHub : Config := ⟨"hub", "P1"⟩

/-- Driver fixture for platform P1. -/
def drvP1 : Driver :=
  ⟨"P1", .mirror, fun _ _ => some "s1", fun _ => some "R1x", fun _ => none⟩

/-- Hub-origin event for the C5 witness. -/
def evC5 : Event :=
  { kind := .msg, plat := "P1", room := "R1", user := "u1", id := "m5"
    ref := "", time := 3, segs := [⟨"text", [("txt", .str "yo")]⟩]
    extra := [] }

/-- Witness for C5 at a concrete hub-origin event on an empty store. -/
theorem handle_hub_origin_noop_witness :
    Handle cfgHub [drvP1, drvP2] StoreState.empty (some evC5) =
      ⟨[], [], [], [], StoreState.empty, none⟩ :=
  handle_hub_origin_noop cfgHub [drvP1, drvP2] StoreState.empty evC5
    rfl rfl (by decide)

theorem ml_ok_nodes (cfg : Config) (reg : Registry) (src : Driver)
    (info : Info) :
    ∀ (l : List String) (nodes : List Node) (creates : List String)
      (res : List Node × List String),
      matchLoop cfg reg src info l nodes creates = .ok res →
      ∃ suf, res.1 = nodes ++ suf ∧ (suf.map Node.plat).Sublist l := by
  intro l
  induction l with
  | nil =>
    intro nodes creates res h
    simp only [matchLoop, Except.ok.injEq] at h
    subst h
    exact ⟨[], (List.append_nil nodes).symm, List.nil_sublist _⟩
  | cons tn rest ih =>
    intro nodes creates res h
    simp only [matchLoop] at h
    cases hf : reg.find? (fun d => d.name == tn) with
    | none =>
      rw [hf] at h
      simp only [] at h
      by_cases hm : (cfg.mode == "hub") = true
      · rw [if_pos hm] at h
        exact absurd h (by simp)
      · rw [if_neg hm] at h
        obtain ⟨suf, h1, h2⟩ := ih nodes creates res h
        exact ⟨suf, h1, h2.cons _⟩
    | some dst =>
      rw [hf] at h
      simp only [] at h
      cases hc : createTargetRoom dst src info with
      | none =>
        rw [hc] at h
        simp only [] at h
        by_cases hm : (cfg.mode == "hub") = true
        · rw [if_pos hm] at h
          exact absurd h (by simp)
        · rw [if_neg hm] at h
          obtain ⟨suf, h1, h2⟩ := ih nodes _ res h
          exact ⟨suf, h1, h2.cons _⟩
      | some tid =>
        rw [hc] at h
        simp only [] at h
        obtain ⟨suf, h1, h2⟩ := ih (nodes ++ [⟨tn, tid, ""⟩]) _ res h
        refine ⟨⟨tn, tid, ""⟩ :: suf, ?_, ?_⟩
        · rw [h1, List.append_assoc]
          rfl
        · exact h2.cons₂ tn

/-- Claim C8 counterexample fixture: a P2 driver whose CreateRoom
succeeds but returns the empty string as room ID. -/
def drvP2e : Driver :=
  ⟨"P2", .mirror, fun _ _ => some "y", fun _ => some "", fun _ => none⟩

/-- Message event from P1 triggering the matching of claim C8. -/
def evC8 : Event :=
  { kind := .msg, plat := "P1", room := "R1", user := "u1", id := "m8"
    ref := "", time := 1, segs := [⟨"text", [("txt", .str "bridge me")]⟩]
    extra := [] }

/-- Counterexample to claim C8 as stated: with a target adapter whose
CreateRoom succeeds returning the empty string, the Matcher persists a
BridgeGroup containing a node with an empty room — the target is not
skipped. -/
theorem match_empty_room_counterexample :
    (Match cfgPeer [drvP1, drvP2e] StoreState.empty evC8 drvP1).created =
      [⟨1, "对等: P1 -> 全部",
        [⟨"P1", "R1", ""⟩, ⟨"P2", "", ""⟩]⟩] := by
  decide

/-- Claim C8 amended: a target whose CreateRoom fails with an error is
skipped (in peer mode), but an empty-string room ID returned by a
successful CreateRoom is not checked: the matching loop appends a node
for that platform whose room is the empty string. -/
theorem matchLoop_empty_room_added (cfg : Config) (reg : Registry)
    (src : Driver) (info : Info) (l : List String) (nodes : List Node)
    (creates : List String) (res : List Node × List String)
    (hok : matchLoop cfg reg src info l nodes creates = .ok res)
    (tn : String) (htn : tn ∈ l) (d : Driver)
    (hd : reg.find? (fun x => x.name == tn) = some d)
    (hmk : createTargetRoom d src info = some "") :
    (⟨tn, "", ""⟩ : Node) ∈ res.1 := by
  induction l generalizing nodes creates with
  | nil => exact absurd htn (List.not_mem_nil tn)
  | cons t rest ih =>
    simp only [matchLoop] at hok
    rcases List.mem_cons.mp htn with heq | hmem
    · subst heq
      rw [hd] at hok
      simp only [] at hok
      rw [hmk] at hok
      simp only [] at hok
      obtain ⟨suf, h1, _⟩ := ml_ok_nodes cfg reg src info rest
        (nodes ++ [⟨tn, "", ""⟩]) _ res hok
      rw [h1]
      exact List.mem_append_left _ (List.mem_append_right _
        (List.mem_singleton_self _))
    · cases hf : reg.find? (fun x => x.name == t) with
      | none =>
        rw [hf] at hok
        simp only [] at hok
        by_cases hm : (cfg.mode == "hub") = true
        · rw [if_pos hm] at hok
          exact absurd hok (by simp)
        · rw [if_neg hm] at hok
          exact ih nodes _ hok hmem
      | some dst =>
        rw [hf] at hok
        simp only [] at hok
        cases hc : createTargetRoom dst src info with
        | none =>
          rw [hc] at hok
          simp only [] at hok
          by_cases hm : (cfg.mode == "hub") = true
          · rw [if_pos hm] at hok
            exact absurd hok (by simp)
          · rw [if_neg hm] at hok
            exact ih nodes _ hok hmem
        | some tid =>
          rw [hc] at hok
          simp only [] at hok
          exact ih (nodes ++ [⟨t, tid, ""⟩]) _ hok hmem

/-- Witness for the amended C8 at the concrete counterexample input. -/
theorem matchLoop_empty_room_added_witness :
    (⟨"P2", "", ""⟩ : Node) ∈
      ([⟨"P1", "R1", ""⟩, ⟨"P2", "", ""⟩] : List Node) :=
  matchLoop_empty_room_added cfgPeer [drvP1, drvP2e] drvP1
    ⟨"R1", "", ""⟩ ["P2"] [⟨"P1", "R1", ""⟩] []
    ([⟨"P1", "R1", ""⟩, ⟨"P2", "", ""⟩], ["P2"]) rfl
    "P2" (by decide) drvP2e rfl rfl

theorem add_some_group (s : StoreState) (name : String)
    (nodes : List Node) (g : Group) (s' : StoreState)
    (h : Store.Add s name nodes = (some g, s')) :
    g = ⟨s.nextGid, name, nodes⟩ := by
  unfold Store.Add at h
  simp only [] at h
  cases hl : Store.addBindsLoop s.nextGid s.binds nodes [] with
  | mk o dels =>
    rw [hl] at h
    cases o with
    | none =>
      simp only [] at h
      exact absurd (congrArg Prod.fst h) (by simp)
    | some bs =>
      simp only [Prod.mk.injEq, Option.some.injEq] at h
      exact h.1.symm

theorem tplats_peer_not_src (reg : Registry) (srcPlat : String) :
    srcPlat ∉ (reg.filter (fun d => d.name != srcPlat)).map Driver.name := by
  intro hmem
  rw [List.mem_map] at hmem
  obtain ⟨d, hd, hname⟩ := hmem
  rw [List.mem_filter] at hd
  rw [hname] at hd
  simp at hd

/-- Claim C6: every BridgeGroup the Matcher persists is well-formed —
at least two nodes, the source (platform, room) first, and pairwise
distinct node platforms (given that the registry's driver names are
distinct, as Go map keys are); and in peer mode with a single registered
adapter (the source's own), matching fails with "no available target
platform" and persists nothing. -/
theorem match_group_wellformed (cfg : Config) (reg : Registry)
    (s : StoreState) (e : Event) (src d : Driver)
    (hreg : (reg.map Driver.name).Nodup) :
    (∀ g ∈ (Match cfg reg s e src).created,
        2 ≤ g.nodes.length ∧
        g.nodes.head? = some ⟨e.plat, e.room, ""⟩ ∧
        (g.nodes.map Node.plat).Nodup) ∧
    (cfg.mode = "peer" → reg = [d] → d.name = e.plat →
      (Store.Find s e.plat e.room).1 = [] →
      (Match cfg reg s e src).err = some "无可用目标平台" ∧
        (Match cfg reg s e src).created = []) := by
  constructor
  · intro g hg
    unfold Match at hg
    by_cases hguard : (cfg.mode == "hub" && e.plat == cfg.hub) = true
    · rw [if_pos hguard] at hg
      exact absurd hg (List.not_mem_nil g)
    · rw [if_neg hguard] at hg
      cases hfind : Store.Find s e.plat e.room with
      | mk binds0 s0 =>
        rw [hfind] at hg
        simp only [] at hg
        by_cases hbe : binds0.isEmpty = true
        · rw [hbe] at hg
          simp only [Bool.not_true, Bool.false_eq_true, if_false] at hg
          by_cases hte : (getTargetPlatforms cfg reg e.plat).1.isEmpty = true
          · rw [if_pos hte] at hg
            exact absurd hg (List.not_mem_nil g)
          · rw [if_neg hte] at hg
            cases hml : matchLoop cfg reg src (getSrcInfo src e.room)
                (getTargetPlatforms cfg reg e.plat).1
                [⟨e.plat, e.room, ""⟩] [] with
            | error pr =>
              rw [hml] at hg
              cases pr with
              | mk cr msg => exact absurd hg (List.not_mem_nil g)
            | ok pr =>
              rw [hml] at hg
              cases pr with
              | mk nodes creates =>
                simp only [] at hg
                by_cases hlen : nodes.length < 2
                · rw [if_pos hlen] at hg
                  exact absurd hg (List.not_mem_nil g)
                · rw [if_neg hlen] at hg
                  cases hadd : Store.Add s0
                      (getTargetPlatforms cfg reg e.plat).2 nodes with
                  | mk og s1 =>
                    rw [hadd] at hg
                    cases og with
                    | none => exact absurd hg (List.not_mem_nil g)
                    | some g0 =>
                      simp only [List.mem_singleton] at hg
                      subst hg
                      have hgeq := add_some_group s0 _ nodes g s1 hadd
                      obtain ⟨suf, hsuf, hsub⟩ := ml_ok_nodes cfg reg src
                        (getSrcInfo src e.room) _ _ _ _ hml
                      simp only [] at hsuf
                      have hnodes : g.nodes = nodes := by rw [hgeq]
                      have htp_nodup :
                          (getTargetPlatforms cfg reg e.plat).1.Nodup ∧
                          e.plat ∉ (getTargetPlatforms cfg reg e.plat).1 := by
                        unfold getTargetPlatforms
                        by_cases hmode : (cfg.mode == "hub") = true
                        · rw [if_pos hmode]
                          have hne : (e.plat == cfg.hub) = false := by
                            cases heb : (e.plat == cfg.hub) with
                            | false => rfl
                            | true =>
                              exact absurd (by rw [hmode, heb]; rfl) hguard
                          constructor
                          · exact List.nodup_singleton _
                          · rw [List.mem_singleton]
                            intro hcontra
                            rw [hcontra] at hne
                            simp at hne
                        · rw [if_neg hmode]
                          constructor
                          · exact hreg.sublist
                              (List.filter_sublist reg |>.map Driver.name)
                          · exact tplats_peer_not_src reg e.plat
                      refine ⟨?_, ?_, ?_⟩
                      · rw [hnodes]
                        omega
                      · rw [hnodes, hsuf]
                        rfl
                      · rw [hnodes, hsuf]
                        simp only [List.map_append, List.map_cons,
                          List.map_nil, List.nil_append,
                          List.singleton_append]
                        rw [List.nodup_cons]
                        constructor
                        · intro hmem
                          exact htp_nodup.2 (hsub.subset hmem)
                        · exact htp_nodup.1.sublist hsub
        · rw [Bool.not_eq_true] at hbe
          rw [hbe] at hg
          simp only [Bool.not_false, if_true] at hg
          exact absurd hg (List.not_mem_nil g)
  · intro hmode hrg hname hfind
    have hfs : Store.Find s e.plat e.room = ([], s) := find_nil _ _ _ hfind
    have hguard : (cfg.mode == "hub" && e.plat == cfg.hub) = false := by
      rw [hmode]
      rfl
    have htp : (getTargetPlatforms cfg reg e.plat).1 = [] := by
      unfold getTargetPlatforms
      rw [hmode, hrg]
      simp [hname]
    unfold Match
    rw [hguard]
    rw [hfs]
    rw [htp]
    exact ⟨rfl, rfl⟩

/-- Witness for C6: part one at a two-platform peer registry where a
group is created, part two at the single-adapter registry. -/
theorem match_group_wellformed_witness :
    (∀ g ∈ (Match cfgPeer [drvP1, drvP2] StoreState.empty evC5
        drvP1).created,
      2 ≤ g.nodes.length ∧
      g.nodes.head? = some ⟨evC5.plat, evC5.room, ""⟩ ∧
      (g.nodes.map Node.plat).Nodup) ∧
    ((Match cfgPeer [drvP1] StoreState.empty evC5 drvP1).err =
        some "无可用目标平台" ∧
      (Match cfgPeer [drvP1] StoreState.empty evC5 drvP1).created = []) :=
  ⟨(match_group_wellformed cfgPeer [drvP1, drvP2] StoreState.empty evC5
      drvP1 drvP1 (by decide)).1,
   (match_group_wellformed cfgPeer [drvP1] StoreState.empty evC5 drvP1
      drvP1 (by decide)).2 rfl rfl rfl (by decide)⟩

/-! ## Reachable store states and the bind-uniqueness invariant -/

/-- UniqueBinds: no two rows of the binds table share a (plat, room)
primary key — equivalently, every (platform, room) pair belongs to at
most one bridge group. -/
def UniqueBinds (s : StoreState) : Prop :=
  s.binds.Pairwise (fun a b => ¬(a.plat = b.plat ∧ a.room = b.room))

/-- CacheBound: every key cached by Store.Find is backed by a binds
row. -/
def CacheBound (s : StoreState) : Prop :=
  ∀ kv ∈ s.cacheG, ∃ b ∈ s.binds, b.plat = kv.1.1 ∧ b.room = kv.1.2

/-- Reach: store states reachable from a fresh database through the
store operations (Find's caching, Add, the mapping insert, and the
cleaner's delete). -/
inductive Reach : StoreState → Prop where
  | init : Reach StoreState.empty
  | find (s : StoreState) (p r : String) :
      Reach s → Reach (Store.Find s p r).2
  | add (s : StoreState) (name : String) (nodes : List Node) :
      Reach s → Reach (Store.Add s name nodes).2
  | mapIns (s : StoreState) (a b c d : String) (bid ts : Int) :
      Reach s → Reach (Store.mapInsert s a b c d bid ts)
  | clean (s : StoreState) (now : Int) :
      Reach s → Reach (Store.cleanerExec s now)

theorem al_prefix (bid : Int) :
    ∀ (nodes : List Node) (bs : List BindRow)
      (dels : List (String × String)) (bs' : List BindRow)
      (dels' : List (String × String)),
      Store.addBindsLoop bid bs nodes dels = (some bs', dels') →
      ∃ suf, bs' = bs ++ suf := by
  intro nodes
  induction nodes with
  | nil =>
    intro bs dels bs' dels' h
    simp only [Store.addBindsLoop, Prod.mk.injEq, Option.some.injEq] at h
    exact ⟨[], by rw [← h.1, List.append_nil]⟩
  | cons n rest ih =>
    intro bs dels bs' dels' h
    simp only [Store.addBindsLoop] at h
    by_cases hany : bs.any
        (fun b => b.plat == n.plat && b.room == n.room) = true
    · rw [if_pos hany] at h
      exact absurd (congrArg Prod.fst h) (by simp)
    · rw [if_neg hany] at h
      obtain ⟨suf, hsuf⟩ := ih _ _ _ _ h
      exact ⟨⟨bid, n.plat, n.room, n.cfg⟩ :: suf, by
        rw [hsuf, List.append_assoc]
        rfl⟩

theorem al_unique (bid : Int) :
    ∀ (nodes : List Node) (bs : List BindRow)
      (dels : List (String × String)) (bs' : List BindRow)
      (dels' : List (String × String)),
      Store.addBindsLoop bid bs nodes dels = (some bs', dels') →
      bs.Pairwise (fun a b => ¬(a.plat = b.plat ∧ a.room = b.room)) →
      bs'.Pairwise (fun a b => ¬(a.plat = b.plat ∧ a.room = b.room)) := by
  intro nodes
  induction nodes with
  | nil =>
    intro bs dels bs' dels' h hp
    simp only [Store.addBindsLoop, Prod.mk.injEq, Option.some.injEq] at h
    rw [← h.1]
    exact hp
  | cons n rest ih =>
    intro bs dels bs' dels' h hp
    simp only [Store.addBindsLoop] at h
    by_cases hany : bs.any
        (fun b => b.plat == n.plat && b.room == n.room) = true
    · rw [if_pos hany] at h
      exact absurd (congrArg Prod.fst h) (by simp)
    · rw [if_neg hany] at h
      refine ih _ _ _ _ h ?_
      rw [List.pairwise_append]
      refine ⟨hp, List.pairwise_singleton _ _, ?_⟩
      intro a ha b hb
      rw [List.mem_singleton] at hb
      subst hb
      intro hcontra
      rw [Bool.not_eq_true] at hany
      have := List.any_eq_false.mp hany a ha
      simp only [Bool.and_eq_true, beq_iff_eq] at this
      exact this ⟨hcontra.1, hcontra.2⟩

theorem al_none (bid : Int) :
    ∀ (nodes : List Node) (bs : List BindRow)
      (dels : List (String × String)),
      (∃ n ∈ nodes, bs.any
        (fun b => b.plat == n.plat && b.room == n.room) = true) →
      (Store.addBindsLoop bid bs nodes dels).1 = none := by
  intro nodes
  induction nodes with
  | nil =>
    intro bs dels h
    obtain ⟨n, hn, _⟩ := h
    exact absurd hn (List.not_mem_nil n)
  | cons m rest ih =>
    intro bs dels h
    simp only [Store.addBindsLoop]
    by_cases hany : bs.any
        (fun b => b.plat == m.plat && b.room == m.room) = true
    · rw [if_pos hany]
    · rw [if_neg hany]
      obtain ⟨n, hn, hb⟩ := h
      rcases List.mem_cons.mp hn with heq | hmem
      · subst heq
        exact absurd hb hany
      · refine ih _ _ ⟨n, hmem, ?_⟩
        rw [List.any_append]
        rw [hb]
        rfl

theorem al_dels (bid : Int) :
    ∀ (nodes : List Node) (bs : List BindRow)
      (dels : List (String × String)) (bs0 : List BindRow),
      (∀ x ∈ bs0, x ∈ bs) →
      (∀ k ∈ dels, bs0.any
        (fun b => b.plat == k.1 && b.room == k.2) = false) →
      ∀ k ∈ (Store.addBindsLoop bid bs nodes dels).2,
        bs0.any (fun b => b.plat == k.1 && b.room == k.2) = false := by
  intro nodes
  induction nodes with
  | nil =>
    intro bs dels bs0 _ hdels k hk
    exact hdels k hk
  | cons n rest ih =>
    intro bs dels bs0 hsub hdels k hk
    simp only [Store.addBindsLoop] at hk
    by_cases hany : bs.any
        (fun b => b.plat == n.plat && b.room == n.room) = true
    · rw [if_pos hany] at hk
      exact hdels k hk
    · rw [if_neg hany] at hk
      refine ih (bs ++ [⟨bid, n.plat, n.room, n.cfg⟩]) _ bs0
        (fun x hx => List.mem_append_left _ (hsub x hx)) ?_ k hk
      intro k' hk'
      rcases List.mem_append.mp hk' with hold | hnew
      · exact hdels k' hold
      · rw [List.mem_singleton] at hnew
        subst hnew
        cases hq : bs0.any
            (fun b => b.plat == n.plat && b.room == n.room) with
        | false => rfl
        | true =>
          exfalso
          obtain ⟨x, hx, hxq⟩ := List.any_eq_true.mp hq
          rw [Bool.not_eq_true] at hany
          have hne := List.any_eq_false.mp hany x (hsub x hx)
          exact hne hxq

theorem reach_invariant (s : StoreState) (h : Reach s) :
    UniqueBinds s ∧ CacheBound s := by
  induction h with
  | init =>
    constructor
    · exact List.Pairwise.nil
    · intro kv hkv
      exact absurd hkv (List.not_mem_nil kv)
  | find s p r _ ih =>
    unfold Store.Find
    cases hc : s.cacheG.lookup (p, r) with
    | some v => exact ih
    | none =>
      cases hb : s.binds.find? (fun b => b.plat == p && b.room == r) with
      | none => exact ih
      | some b =>
        simp only []
        constructor
        · exact ih.1
        · intro kv hkv
          rcases List.mem_cons.mp hkv with heq | hmem
          · subst heq
            have hbmem := List.mem_of_find?_eq_some hb
            have hbeq := List.find?_some hb
            simp only [Bool.and_eq_true, beq_iff_eq] at hbeq
            exact ⟨b, hbmem, hbeq.1, hbeq.2⟩
          · exact ih.2 kv hmem
  | add s name nodes _ ih =>
    unfold Store.Add
    simp only []
    cases hl : Store.addBindsLoop s.nextGid s.binds nodes [] with
    | mk o dels =>
      cases o with
      | none =>
        simp only []
        constructor
        · exact ih.1
        · intro kv hkv
          unfold Store.deleteKeys at hkv
          exact ih.2 kv (List.mem_of_mem_filter hkv)
      | some bs =>
        simp only []
        constructor
        · exact al_unique s.nextGid nodes s.binds [] bs dels hl ih.1
        · intro kv hkv
          unfold Store.deleteKeys at hkv
          obtain ⟨b, hb, hbe⟩ := ih.2 kv (List.mem_of_mem_filter hkv)
          obtain ⟨suf, hsuf⟩ := al_prefix s.nextGid nodes s.binds [] bs
            dels hl
          exact ⟨b, by rw [hsuf]; exact List.mem_append_left _ hb, hbe⟩
  | mapIns s a b c d bid ts _ ih =>
    unfold Store.mapInsert
    by_cases hq : s.maps.any (fun r =>
        r.srcPlat == a && r.srcMsg == b && r.dstPlat == c) = true
    · rw [if_pos hq]
      exact ih
    · rw [if_neg hq]
      exact ih
  | clean s now _ ih => exact ih

/-- Claim C4: in every store state reachable through the Store's
operations, each (platform, room) pair belongs to at most one bridge
group (the binds rows have pairwise distinct primary keys); and an Add
whose node list contains an already-bound (platform, room) fails and
returns the store completely unchanged — groups, binds, maps and the
cache included. -/
theorem store_bind_uniqueness (s : StoreState) (hs : Reach s) :
    UniqueBinds s ∧
    ∀ name nodes, (∃ n ∈ nodes, s.binds.any
        (fun b => b.plat == n.plat && b.room == n.room) = true) →
      Store.Add s name nodes = (none, s) := by
  have hinv := reach_invariant s hs
  refine ⟨hinv.1, ?_⟩
  intro name nodes hex
  unfold Store.Add
  simp only []
  cases hl : Store.addBindsLoop s.nextGid s.binds nodes [] with
  | mk o dels =>
    cases o with
    | some bs =>
      exfalso
      have := al_none s.nextGid nodes s.binds [] hex
      rw [hl] at this
      exact Option.noConfusion this
    | none =>
      simp only []
      have hfresh : ∀ k ∈ dels, s.binds.any
          (fun b => b.plat == k.1 && b.room == k.2) = false := by
        intro k hk
        refine al_dels s.nextGid nodes s.binds [] s.binds
          (fun x hx => hx) (fun k' hk' => absurd hk' (List.not_mem_nil k'))
          k ?_
        rw [hl]
        exact hk
      have hdel : Store.deleteKeys s.cacheG dels = s.cacheG := by
        unfold Store.deleteKeys
        apply List.filter_eq_self.mpr
        intro kv hkv
        cases hcont : dels.contains kv.1 with
        | false => rfl
        | true =>
          exfalso
          have hkmem : kv.1 ∈ dels := by
            rw [List.contains_iff_exists_mem_beq] at hcont
            obtain ⟨k', hk', hbeq⟩ := hcont
            rw [eq_of_beq hbeq]
            exact hk'
          have hfr := hfresh kv.1 hkmem
          obtain ⟨b, hb, hbe⟩ := hinv.2 kv hkv
          have : s.binds.any
              (fun x => x.plat == kv.1.1 && x.room == kv.1.2) = true := by
            rw [List.any_eq_true]
            exact ⟨b, hb, by simp [hbe.1, hbe.2]⟩
          rw [hfr] at this
          exact Bool.noConfusion this
      rw [hdel]

/-- Reachable store fixture for the C4 witness: one bridge P1:R1-P2:R2
created on a fresh store. -/
def storeC4 : StoreState :=
  (Store.Add StoreState.empty "g1"
    [⟨"P1", "R1", ""⟩, ⟨"P2", "R2", ""⟩]).2

/-- Witness for C4: the bridge store satisfies the uniqueness invariant,
and adding a bridge that reuses the bound node P1:R1 fails leaving the
store unchanged. -/
theorem store_bind_uniqueness_witness :
    UniqueBinds storeC4 ∧
      Store.Add storeC4 "g2" [⟨"P3", "R3", ""⟩, ⟨"P1", "R1", ""⟩] =
        (none, storeC4) := by
  have h := store_bind_uniqueness storeC4
    (Reach.add StoreState.empty "g1" [⟨"P1", "R1", ""⟩, ⟨"P2", "R2", ""⟩]
      Reach.init)
  exact ⟨h.1, h.2 "g2" [⟨"P3", "R3", ""⟩, ⟨"P1", "R1", ""⟩]
    ⟨⟨"P1", "R1", ""⟩, by decide, by decide⟩⟩

end Relify
